import Mathlib

/-!
Verification development for the tsh shell (src/user/tsh.c).

The definitions below are a shallow embedding of the C source, translated
function by function.  C enums become Lean inductives with the source's
constructor names; C structs become Lean structures; C arrays indexed by
small integers become functions from Nat (stale / uninitialized entries are
carried explicitly as parameters, mirroring the fact that the C objects are
global and reused between REPL iterations); loops become recursive
functions, with an explicit fuel argument where the C loop advances a
pointer non-structurally (the fuel is chosen strictly larger than the number
of loop iterations the C code can perform, so the fuel-exhaustion branch is
unreachable).

The named limits TSH_MAX_NUM_ARGUMENTS, TSH_MAX_PIPELINE_LENGTH,
TSH_MAX_CMD_LIST_LENGTH, TSH_MAX_CMD_LINE_LENGTH come from user/tsh.h,
which is not part of the sources; per the specification they are
implementer-chosen positive constants, so they are kept as explicit
parameters (maxArgs, maxPipe, maxList, cap) of the embedded functions.

The executor's interaction with the operating system is embedded as a pure
trace semantics: every syscall the C code performs is recorded as an Event,
and the nondeterministic parts of the OS (fork success, the descriptor
returned by open, the pair returned by pipe, the status returned by wait)
are supplied by an Os record.  dup(fd) is recorded as the event dupE fd:
the C code always calls close(n) immediately before dup(fd) so that the
duplicate lands on descriptor n.
-/

/-- TokenType from tsh.c (enum, declaration order preserved). -/
inductive TokenType where
  | TOKEN_INVALID
  | TOKEN_WORD
  | TOKEN_PIPE
  | TOKEN_LIST
  | TOKEN_REDIRECT_OUTPUT
  | TOKEN_REDIRECT_OUTPUT_APPEND
  | TOKEN_REDIRECT_INPUT
  | TOKEN_BACKGROUND
  | TOKEN_GROUP_START
  | TOKEN_GROUP_END
deriving DecidableEq, Repr

open TokenType

/-- Token from tsh.c.  In C, value is a char pointer into the line buffer
(null for no meaningful value); here it is an owned optional string.  For
symbol tokens the C stores a pointer that is never read downstream (the
parser only reads value of TOKEN_WORD tokens), so symbol tokens carry
none. -/
structure Token where
  type : TokenType
  value : Option String
deriving DecidableEq, Repr

/-- RedirectionType from tsh.c (enum, declaration order preserved:
REDIRECT_INPUT is 0, i.e. the value of zero-initialized memory). -/
inductive RedirectionType where
  | REDIRECT_INPUT
  | REDIRECT_OUTPUT
  | REDIRECT_APPEND
  | REDIRECT_NONE
deriving DecidableEq, Repr

open RedirectionType

/-- Redirection struct from tsh.c. -/
structure Redirection where
  source_fd : Nat
  dest_fd : Int
  path : Option String
  type : RedirectionType
deriving DecidableEq, Repr

/-- CommandType from tsh.c (enum, declaration order preserved:
CMD_INVALID is 0). -/
inductive CommandType where
  | CMD_INVALID
  | CMD_EMPTY
  | CMD_SIMPLE
  | CMD_PIPELINE
  | CMD_LIST
deriving DecidableEq, Repr

open CommandType

/-- Error-flag constants from tsh.c.  Note CMD_PIPELINE_TOO_LONG is 0x0f
in the source, not 0x10. -/
def CMD_SYNTAX_ERROR : Nat := 0x01

def CMD_TOO_MANY_ARGUMENTS : Nat := 0x02

def CMD_MISSING_REDIRECTION_DESTINATION : Nat := 0x04

def CMD_ARGUMENT_AFTER_REDIRECT : Nat := 0x08

def CMD_PIPELINE_TOO_LONG : Nat := 0x0f

def CMD_TOO_MANY_COMMANDS : Nat := 0x10

def CMD_UNKNOWN_TYPE : Nat := 0x20

def CMD_BACKGROUND_MODE : Nat := 0x010000

/-- SimpleCommand struct from tsh.c.  argv is the C array
char *argv[TSH_MAX_NUM_ARGUMENTS + 1] as a total function from index to
optional string (none is a null pointer); entries the parser does not
write keep their previous (stale) contents, which the embedding threads
through explicitly.  redirects is the 3-element array as a function. -/
structure SimpleCommand where
  type : CommandType
  flag : Nat
  name : Option String
  argc : Nat
  argv : Nat → Option String
  redirects : Nat → Redirection

/-- Inner Command struct of a pipeline element: tsh.c stores a Command
whose union points at a SimpleCommand (set_command is only ever called
with CMD_SIMPLE for pipeline elements).  The pointer is embedded by
value. -/
structure InnerCommand where
  type : CommandType
  flag : Nat
  simple : SimpleCommand

/-- Pipeline struct from tsh.c.  commands is the element array; only the
prefix [0, len) is ever written before being read, so it is embedded as a
list that grows by appending. -/
structure Pipeline where
  type : CommandType
  flag : Nat
  len : Nat
  commands : List InnerCommand

/-- Top-level Command struct from tsh.c: a tag, a flag and a union over
the two payload pointers.  Both payloads are present here; only the one
selected by type is meaningful (as in C, where the other union member is
stale). -/
structure TopCommand where
  type : CommandType
  flag : Nat
  simple : SimpleCommand
  pipe : Pipeline

/-- struct CommandData from tsh.c: the arena of SimpleCommand slots
(_simples), the single Pipeline (_pipeline) and the top Command (cmd).
arena gives the stale pre-parse contents of each _simples slot; the
cmdType/cmdFlag/cmdSimple fields are the top Command's current contents.
The top Command's pipeline pointer always aliases _pipeline, so the
embedding reconstructs it from the pipeline field when the tree is read
(see topCommand). -/
structure CommandData where
  nSimples : Nat
  arena : Nat → SimpleCommand
  pipeline : Pipeline
  cmdType : CommandType
  cmdFlag : Nat
  cmdSimple : SimpleCommand

/-- Read the top Command out of a CommandData, resolving the union:
the pipeline payload aliases the CommandData's _pipeline storage. -/
def topCommand (cd : CommandData) : TopCommand :=
  { type := cd.cmdType, flag := cd.cmdFlag, simple := cd.cmdSimple, pipe := cd.pipeline }

def defaultToken : Token := { type := TOKEN_INVALID, value := none }

/-- Zero-initialized Redirection (global/static storage in C): note that
enum value 0 is REDIRECT_INPUT and dest_fd 0 is a valid descriptor. -/
def zeroRedir : Redirection :=
  { source_fd := 0, dest_fd := 0, path := none, type := REDIRECT_INPUT }

/-- Zero-initialized SimpleCommand (the state of each _simples slot when
the shell starts: this_shell is a zero-initialized global). -/
def zeroSimple : SimpleCommand :=
  { type := CMD_INVALID, flag := 0, name := none, argc := 0,
    argv := fun _ => none, redirects := fun _ => zeroRedir }

/-- Zero-initialized Pipeline. -/
def zeroPipeline : Pipeline :=
  { type := CMD_INVALID, flag := 0, len := 0, commands := [] }

/-- Zero-initialized CommandData (fresh shell start). -/
def zeroCd : CommandData :=
  { nSimples := 0, arena := fun _ => zeroSimple, pipeline := zeroPipeline,
    cmdType := CMD_INVALID, cmdFlag := 0, cmdSimple := zeroSimple }

/-! ## Line buffer (ReadLine, tsh.c lines 330-350) -/

/-- The comparison c == EOF in ReadLine, where c is a char and EOF is -1.
On the target (RISC-V xv6) char is unsigned, so after integer promotion
the comparison is against a value in [0, 255] and is never true; the
translation keeps the comparison in this provably-false form. -/
def charEOF (c : Char) : Bool := ((c.toNat : Int) == (-1 : Int))

/-- ReadLine's read loop: nleft starts at sizeof(buffer) (the cap) and
counts down; the result is line->len, the number of characters stored.
Reading stops when the input runs out (read returns != 1), at a newline
(stripped, not stored) or when nleft reaches 0. -/
def ReadLineLen : Nat → List Char → Nat
  | 0, _ => 0
  | _ + 1, [] => 0
  | nleft + 1, c :: cs => if c = '\n' ∨ charEOF c then 0 else 1 + ReadLineLen nleft cs

/-- The characters ReadLine stores into the buffer (the first len input
characters). -/
def readLineChars (cap : Nat) (input : List Char) : List Char :=
  input.take (ReadLineLen cap input)

/-! ## Lexer (Tokenize, tsh.c lines 362-425) -/

def whitespaceChars : List Char := [' ', '\t', '\r', '\n', Char.ofNat 11]

def symbolChars : List Char := ['<', '|', '>', '&', ';']

def isWhitespaceC (c : Char) : Bool := whitespaceChars.contains c

def isSymbolC (c : Char) : Bool := symbolChars.contains c

/-- A word character: neither whitespace nor a symbol (the word scan in
Tokenize stops at either class or at the end of the line). -/
def isWordCharC (c : Char) : Bool := !(isWhitespaceC c) && !(isSymbolC c)

/-- The switch (next_char) in Tokenize. -/
def symTokType (c : Char) : TokenType :=
  if c = '<' then TOKEN_REDIRECT_INPUT
  else if c = '>' then TOKEN_REDIRECT_OUTPUT
  else if c = '|' then TOKEN_PIPE
  else if c = '&' then TOKEN_BACKGROUND
  else if c = ';' then TOKEN_LIST
  else TOKEN_INVALID

/-- The scan loop of Tokenize over the line (between buffer and
buffer + strlen(buffer)).  One iteration advances the cursor by at least
one character, so fuel = length + 1 makes the fuel-0 branch unreachable.
The *(p + 1) == '>' lookahead reads the NUL terminator when p + 1 is the
end of the line, hence the headD with NUL default.  The C code also caps
the token count by idx < sizeof(tl->tokens); the cap comes from the
missing tsh.h and no claim concerns it, so the embedding lexes the whole
line.  Word tokens' values are the scanned characters (in C, a pointer
into the buffer with a NUL written after the word). -/
def tokenizeF : Nat → List Char → List Token
  | 0, _ => []
  | _ + 1, [] => []
  | fuel + 1, c :: cs =>
    if isWhitespaceC c then tokenizeF fuel cs
    else if isSymbolC c then
      if c = '>' ∧ cs.headD (Char.ofNat 0) = '>' then
        { type := TOKEN_REDIRECT_OUTPUT_APPEND, value := none } :: tokenizeF fuel cs.tail
      else
        { type := symTokType c, value := none } :: tokenizeF fuel cs
    else
      { type := TOKEN_WORD, value := some (String.mk ((c :: cs).takeWhile isWordCharC)) }
        :: tokenizeF fuel ((c :: cs).dropWhile isWordCharC)

/-- Tokenize over a full line. -/
def tokenize (line : List Char) : List Token := tokenizeF (line.length + 1) line

def appendTok : Token := { type := TOKEN_REDIRECT_OUTPUT_APPEND, value := none }

def outTok : Token := { type := TOKEN_REDIRECT_OUTPUT, value := none }

/-! ## Parser (ParseSimpleCommand / ParsePipeline, tsh.c lines 142-314) -/

def isWordTok (t : Token) : Bool :=
  match t.type with
  | TOKEN_WORD => true
  | _ => false

/-- redirects[fd].source_fd = fd; redirects[fd].type = ty (the two
assignments at the head of each redirection branch in
ParseSimpleCommand). -/
def setRedir (rs : Nat → Redirection) (fd : Nat) (ty : RedirectionType) : Nat → Redirection :=
  fun i => if i = fd then { rs fd with type := ty, source_fd := fd } else rs i

/-- redirects[fd].path = q->value. -/
def setRedirPath (rs : Nat → Redirection) (fd : Nat) (pth : Option String) : Nat → Redirection :=
  fun i => if i = fd then { rs fd with path := pth } else rs i

/-- The redirection loop of ParseSimpleCommand (tsh.c lines 189-231),
including the if (p != tail) check after the loop (lines 227-231).  The
list argument is the tokens from the cursor to tail; p and tail are the
cursor and end positions, carried so that the post-loop pointer
comparison appears exactly as in the source.  The C loop advances p by 1
(background / unexpected token) or by 2 (redirection + destination word,
only after checking p + 1 < tail), so on normal exit p = tail; the
embedding keeps the comparison and the ARGUMENT_AFTER_REDIRECT branch
nonetheless, faithful to the dead source code. -/
def redirLoop : List Token → Nat → Nat → SimpleCommand → SimpleCommand
  | [], p, tail, s =>
    if p ≠ tail then
      { s with flag := s.flag ||| CMD_ARGUMENT_AFTER_REDIRECT ||| CMD_SYNTAX_ERROR }
    else s
  | t :: rest, p, tail, s =>
    match t.type with
    | TOKEN_REDIRECT_INPUT =>
      let s1 := { s with redirects := setRedir s.redirects 0 REDIRECT_INPUT }
      match rest with
      | q :: rest2 =>
        match q.type with
        | TOKEN_WORD =>
          redirLoop rest2 (p + 2) tail
            { s1 with redirects := setRedirPath s1.redirects 0 q.value }
        | _ => { s1 with flag := s1.flag ||| CMD_MISSING_REDIRECTION_DESTINATION }
      | [] => { s1 with flag := s1.flag ||| CMD_MISSING_REDIRECTION_DESTINATION }
    | TOKEN_REDIRECT_OUTPUT =>
      let s1 := { s with redirects := setRedir s.redirects 1 REDIRECT_OUTPUT }
      match rest with
      | q :: rest2 =>
        match q.type with
        | TOKEN_WORD =>
          redirLoop rest2 (p + 2) tail
            { s1 with redirects := setRedirPath s1.redirects 1 q.value }
        | _ => { s1 with flag := s1.flag ||| CMD_MISSING_REDIRECTION_DESTINATION }
      | [] => { s1 with flag := s1.flag ||| CMD_MISSING_REDIRECTION_DESTINATION }
    | TOKEN_REDIRECT_OUTPUT_APPEND =>
      let s1 := { s with redirects := setRedir s.redirects 1 REDIRECT_APPEND }
      match rest with
      | q :: rest2 =>
        match q.type with
        | TOKEN_WORD =>
          redirLoop rest2 (p + 2) tail
            { s1 with redirects := setRedirPath s1.redirects 1 q.value }
        | _ => { s1 with flag := s1.flag ||| CMD_MISSING_REDIRECTION_DESTINATION }
      | [] => { s1 with flag := s1.flag ||| CMD_MISSING_REDIRECTION_DESTINATION }
    | TOKEN_BACKGROUND =>
      redirLoop rest (p + 1) tail { s with flag := s.flag ||| CMD_BACKGROUND_MODE }
    | _ =>
      redirLoop rest (p + 1) tail { s with flag := s.flag ||| CMD_SYNTAX_ERROR }

/-- ParseSimpleCommand (tsh.c lines 154-233) over the token slice
[start, tail); s0 is the stale pre-parse contents of the SimpleCommand
slot (the _simples arena entry being overwritten).  The argument loop
stops at the first non-word token or when i reaches maxArgs, so the
subsequent i > maxArgs check (with its TOO_MANY_ARGUMENTS flag) is kept
but unreachable, faithful to the source. -/
def ParseSimpleCommand (maxArgs : Nat) (s0 : SimpleCommand) (ts : List Token) : SimpleCommand :=
  let s1 := { s0 with type := CMD_EMPTY }
  let s2 :=
    match ts with
    | t :: _ =>
      match t.type with
      | TOKEN_WORD => { s1 with type := CMD_SIMPLE, name := t.value, flag := 0 }
      | _ => s1
    | [] => s1
  let wlen := (ts.takeWhile isWordTok).length
  let n := min wlen maxArgs
  let s3 := { s2 with
    argv := fun j =>
      if j < n then (ts.getD j defaultToken).value
      else if j = n then none
      else s0.argv j,
    argc := n }
  if n > maxArgs then { s3 with flag := s3.flag ||| CMD_TOO_MANY_ARGUMENTS }
  else
    let s4 := { s3 with
      redirects := fun i =>
        if i < 3 then { source_fd := i, dest_fd := -1, path := none, type := REDIRECT_NONE }
        else s0.redirects i }
    redirLoop (ts.drop n) n ts.length s4

/-- find_next_toke_with_type specialized to TOKEN_PIPE as ParsePipeline
calls it: scans the remaining tokens (the suffix starting at absolute
position p) and returns the absolute position of the first pipe token,
or the tail position when there is none. -/
def findPipe : List Token → Nat → Nat
  | [], p => p
  | t :: rest, p =>
    match t.type with
    | TOKEN_PIPE => p
    | _ => findPipe rest (p + 1)

/-- init_pipeline (tsh.c lines 235-239).  The commands array is stale in
C but every entry is written before it is read, so the embedding restarts
from the empty list. -/
def initPipeline : Pipeline := { type := CMD_PIPELINE, flag := 0, len := 0, commands := [] }

/-- The while loop of ParsePipeline (tsh.c lines 262-283).  The C loop
condition reads curr, but at every evaluation of the condition curr
equals prev (curr = prev = head initially; at the bottom of an
iteration prev is set to curr; and when find_next_toke_with_type
returns tail the inner if is skipped and the condition curr < tail is
false, which the embedding renders as returning at that same point), so
the condition is expressed on prev here.  Each iteration that recurses
strictly advances prev, so fuel = length + 1 makes the fuel-0 branch
unreachable.  Returns the final prev together with the updated
CommandData.  set_command(command, CMD_PIPELINE, pipeline) copies
pipeline->flag (0 right after init_pipeline) into the top command's
flag. -/
def ParsePipelineLoop (maxArgs maxPipe maxList : Nat) (ts : List Token) :
    Nat → Nat → CommandData → Nat × CommandData
  | 0, prev, cd => (prev, cd)
  | fuel + 1, prev, cd =>
    if prev < ts.length ∧ cd.pipeline.len < maxPipe ∧ cd.nSimples < maxList then
      let curr := findPipe (ts.drop prev) prev
      if curr < ts.length then
        let cd1 :=
          if cd.pipeline.len = 0 then
            let cdP := { cd with pipeline := initPipeline }
            if cdP.cmdType ≠ CMD_LIST then
              { cdP with cmdType := CMD_PIPELINE, cmdFlag := initPipeline.flag }
            else cdP
          else cd
        let simple := ParseSimpleCommand maxArgs (cd1.arena cd1.nSimples)
          ((ts.drop prev).take (curr - prev))
        let cd2 := { cd1 with
          nSimples := cd1.nSimples + 1,
          pipeline := { cd1.pipeline with
            commands := cd1.pipeline.commands ++
              [{ type := CMD_SIMPLE, flag := simple.flag, simple := simple }],
            len := cd1.pipeline.len + 1 } }
        ParsePipelineLoop maxArgs maxPipe maxList ts fuel (curr + 1) cd2
      else (prev, cd)
    else (prev, cd)

/-- ParsePipeline (tsh.c lines 257-309). -/
def ParsePipeline (maxArgs maxPipe maxList : Nat) (ts : List Token) (cd0 : CommandData) :
    CommandData :=
  let r := ParsePipelineLoop maxArgs maxPipe maxList ts (ts.length + 1) 0 cd0
  let prev := r.1
  let cd := r.2
  if cd.nSimples ≥ maxList then
    let pl := { cd.pipeline with flag := cd.pipeline.flag ||| CMD_TOO_MANY_COMMANDS }
    { cd with pipeline := pl, cmdFlag := cd.cmdFlag ||| pl.flag }
  else
    let simple := ParseSimpleCommand maxArgs (cd.arena cd.nSimples) (ts.drop prev)
    let cd1 := { cd with nSimples := cd.nSimples + 1 }
    let cd2 :=
      if cd1.pipeline.len = 0 then
        { cd1 with cmdType := CMD_SIMPLE, cmdFlag := simple.flag, cmdSimple := simple }
      else cd1
    if cd2.pipeline.len ≥ maxPipe then
      let pl := { cd2.pipeline with flag := cd2.pipeline.flag ||| CMD_PIPELINE_TOO_LONG }
      { cd2 with pipeline := pl, cmdFlag := cd2.cmdFlag ||| pl.flag }
    else if cd2.pipeline.len > 0 then
      { cd2 with pipeline := { cd2.pipeline with
          commands := cd2.pipeline.commands ++
            [{ type := CMD_SIMPLE, flag := simple.flag, simple := simple }],
          len := cd2.pipeline.len + 1 } }
    else cd2

/-- ParseCommand (tsh.c lines 311-314): a thin wrapper over
ParsePipeline. -/
def ParseCommand (maxArgs maxPipe maxList : Nat) (ts : List Token) (cd0 : CommandData) :
    CommandData :=
  ParsePipeline maxArgs maxPipe maxList ts cd0

/-! ## Executor (runSimpleCommand / runPipelineCommnad / RunCommand,
tsh.c lines 466-619), as a trace semantics over OS events. -/

/-- The two open modes the source uses: O_RDONLY and
O_WRONLY | O_CREATE (no truncate, no append). -/
inductive OpenMode where
  | O_RDONLY
  | O_WRONLY_CREATE
deriving DecidableEq, Repr

open OpenMode

/-- One OS interaction, in program order.  dupE fd records dup(fd); the
preceding closeE n determines which standard descriptor the duplicate
lands on. -/
inductive Event where
  | pipeE (rd wr : Int)
  | forkE
  | closeE (fd : Int)
  | dupE (fd : Int)
  | openE (path : Option String) (mode : OpenMode)
  | execE (name : Option String) (argv : List (Option String))
  | exitE (status : Int)
  | waitE
  | chdirE (path : String)
  | diagE (msg : String)
deriving DecidableEq, Repr

open Event

/-- The OS behaviours the traces depend on: whether fork succeeds, the
status wait reports, the descriptor open returns for a given path, the
two descriptors pipe returns, whether chdir succeeds and whether exec
succeeds. -/
structure Os where
  forkOk : Bool
  waitStatus : Int
  openRet : Option String → Int
  pipeRd : Int
  pipeWr : Int
  chdirOk : Bool
  execOk : Bool

/-- The argv array as the exec primitive consumes it: entries 0..argc-1
and then the argv[argc] sentinel. -/
def argvList (cmd : SimpleCommand) : List (Option String) :=
  (List.range (cmd.argc + 1)).map cmd.argv

/-- The exec call of the command, on its name and argv array. -/
def execEv (cmd : SimpleCommand) : Event := execE cmd.name (argvList cmd)

/-- The tail of a child of runSimpleCommand: exec, and (only if exec
fails and control comes back) the diagnostic and exit(1). -/
def execTail (os : Os) (cmd : SimpleCommand) : List Event :=
  [execEv cmd] ++ (if os.execOk then [] else [diagE ("Command not found!"), exitE 1])

/-- The output-redirection step of runSimpleCommand's child (tsh.c lines
554-566): it fires only when redirects[1].type == REDIRECT_OUTPUT (an
Append slot takes the other branch and has no effect), opens
O_WRONLY | O_CREATE, and skips the dup when the returned descriptor is
already 1. -/
def simpleOutPart (os : Os) (cmd : SimpleCommand) : List Event :=
  let r1 := cmd.redirects 1
  match r1.type with
  | REDIRECT_OUTPUT =>
    let fd := os.openRet r1.path
    if fd < 0 then
      [openE r1.path O_WRONLY_CREATE, diagE ("Cannot open file descriptor"), exitE 1]
    else
      [openE r1.path O_WRONLY_CREATE]
        ++ (if fd = 1 then [] else [closeE 1, dupE fd, closeE fd])
        ++ execTail os cmd
  | _ => execTail os cmd

/-- The trace of the child process of runSimpleCommand (tsh.c lines
537-571): empty commands exit 0, invalid commands diagnose and exit 1,
otherwise input redirection (slot 0, only for kind REDIRECT_INPUT), then
output redirection, then exec. -/
def runSimpleChild (os : Os) (cmd : SimpleCommand) : List Event :=
  match cmd.type with
  | CMD_EMPTY => [exitE 0]
  | CMD_INVALID => [diagE ("Invalid command"), exitE 1]
  | _ =>
    let r0 := cmd.redirects 0
    match r0.type with
    | REDIRECT_INPUT =>
      let fd := os.openRet r0.path
      if fd < 0 then
        [openE r0.path O_RDONLY, diagE ("Cannot open file descriptor"), exitE 1]
      else
        [openE r0.path O_RDONLY, closeE 0, dupE fd, closeE fd] ++ simpleOutPart os cmd
    | _ => simpleOutPart os cmd

/-- Result of runSimpleCommand: the parent's return value and trace, and
the child's trace when the fork succeeded. -/
structure SimpleRun where
  ret : Int
  parent : List Event
  child : Option (List Event)
deriving DecidableEq, Repr

/-- runSimpleCommand (tsh.c lines 535-580): fork; the parent waits and
returns the status wait stored; on fork failure a diagnostic and
return -1. -/
def runSimpleCommand (os : Os) (cmd : SimpleCommand) : SimpleRun :=
  if os.forkOk then
    { ret := os.waitStatus, parent := [forkE, waitE], child := some (runSimpleChild os cmd) }
  else
    { ret := -1, parent := [forkE, diagE ("Fork failed")], child := none }

/-- The redirection scan loop shared by the first and last pipeline
stages (tsh.c lines 482-490 and 502-510): walk all 3 slots; every slot of
the wanted kind overwrites the candidate descriptor, opening the slot's
path when it has no already-open dest_fd.  Returns the final candidate
descriptor and the open events performed. -/
def scanRedirs (os : Os) (rs : Nat → Redirection) (want : RedirectionType) (mode : OpenMode) :
    Int × List Event :=
  (List.range 3).foldl
    (fun acc i =>
      let r := rs i
      if r.type = want then
        if r.dest_fd ≥ 0 then (r.dest_fd, acc.2)
        else (os.openRet r.path, acc.2 ++ [openE r.path mode])
      else acc)
    (-1, [])

/-- The first stage's own input redirection (tsh.c lines 482-495): scan
for REDIRECT_INPUT slots, then if a usable descriptor was found, splice
it onto fd 0. -/
def stageInputRedir (os : Os) (cmd : SimpleCommand) : List Event :=
  let r := scanRedirs os cmd.redirects REDIRECT_INPUT O_RDONLY
  r.2 ++ (if r.1 ≥ 0 then [closeE 0, dupE r.1, closeE r.1] else [])

/-- The last stage's own output redirection (tsh.c lines 502-515): scan
for REDIRECT_OUTPUT slots (an Append slot is skipped), then if a usable
descriptor was found, splice it onto fd 1. -/
def stageOutputRedir (os : Os) (cmd : SimpleCommand) : List Event :=
  let r := scanRedirs os cmd.redirects REDIRECT_OUTPUT O_WRONLY_CREATE
  r.2 ++ (if r.1 ≥ 0 then [closeE 1, dupE r.1, closeE r.1] else [])

/-- The commands[x] element of a pipeline, as the C indexing
pipeline->commands[x].cmd.simple reads it. -/
def innerAt (p : Pipeline) (x : Nat) : InnerCommand :=
  p.commands.getD x { type := CMD_INVALID, flag := 0, simple := zeroSimple }

/-- The trace of the child forked for stage x of a pipeline (the body of
if (fork() == 0) in tsh.c lines 476-525): stage 0 splices the pipe
write end onto fd 1 then applies its own input redirection; the last
stage splices the pipe read end onto fd 0 then applies its own output
redirection; every middle stage splices the read end onto fd 1 and the
write end onto fd 0 (as in the source); then exec. -/
def pipelineChild (os : Os) (p : Pipeline) (x : Nat) : List Event :=
  let command := (innerAt p x).simple
  if x = 0 then
    [closeE 1, dupE os.pipeWr, closeE os.pipeRd, closeE os.pipeWr]
      ++ stageInputRedir os command ++ [execEv command]
  else if x = p.len - 1 then
    [closeE 0, dupE os.pipeRd, closeE os.pipeRd, closeE os.pipeWr]
      ++ stageOutputRedir os command ++ [execEv command]
  else
    [closeE 1, dupE os.pipeRd, closeE 0, dupE os.pipeWr, closeE os.pipeRd, closeE os.pipeWr]
      ++ [execEv command]

/-- Result of runPipelineCommnad: the return value, the parent's trace
and the children's traces in fork order. -/
structure PipeRun where
  ret : Int
  parent : List Event
  children : List (List Event)
deriving DecidableEq, Repr

/-- runPipelineCommnad (tsh.c lines 466-533): one pipe before the loop,
one fork per stage, the parent closes both pipe descriptors after the
loop and calls wait once per stage, returning 0.  When fork fails the
C code takes the parent path with no child (the loop continues), so with
forkOk false there are no children. -/
def runPipelineCommnad (os : Os) (p : Pipeline) : PipeRun :=
  { ret := 0,
    parent := [pipeE os.pipeRd os.pipeWr] ++ List.replicate p.len forkE
      ++ [closeE os.pipeRd, closeE os.pipeWr] ++ List.replicate p.len waitE,
    children := if os.forkOk then (List.range p.len).map (pipelineChild os p) else [] }

/-- Shell-global state the executor reads and writes (the should_run and
last_exit_status fields of ShellState). -/
structure ShellSt where
  shouldRun : Bool
  lastExit : Int
deriving DecidableEq, Repr

/-- atoi from the xv6 user library (user/ulib.c, not under src/):
accumulates leading decimal digits, no sign handling. -/
def atoiL : List Char → Nat → Nat
  | c :: cs, n => if '0' ≤ c ∧ c ≤ '9' then atoiL cs (n * 10 + (c.toNat - 48)) else n
  | [], n => n

def atoi (s : String) : Int := (atoiL s.toList 0 : Nat)

/-- strcmp(cmd->name, lit) == 0.  When name is a null pointer (an empty
simple command) the C reads the bytes at address 0, which on xv6 are the
program's first instructions, never a builtin name; the embedding
renders that comparison as false. -/
def nameIs (cmd : SimpleCommand) (lit : String) : Bool :=
  match cmd.name with
  | some n => n = lit
  | none => false

def DEFAULT_HOME_DIR : String := "/"

/-- Result of RunCommand: its return value, the traces produced, and the
updated shell state. -/
structure RunResult where
  ret : Int
  parent : List Event
  children : List (List Event)
  shouldRun : Bool
  lastExit : Int

/-- RunCommand (tsh.c lines 582-619).  For an external simple command
the return value of runSimpleCommand is discarded (the call on line 612
ignores it) and control falls through to return 0.  The exit builtin
terminates the process (exitE event); its branch cannot return, the 0 is
the never-observed return slot. -/
def RunCommand (os : Os) (st : ShellSt) (command : TopCommand) : RunResult :=
  match command.type with
  | CMD_EMPTY =>
    { ret := 1, parent := [], children := [], shouldRun := st.shouldRun, lastExit := st.lastExit }
  | CMD_INVALID =>
    { ret := -1, parent := [diagE ("invalid command")], children := [],
      shouldRun := st.shouldRun, lastExit := st.lastExit }
  | CMD_SIMPLE =>
    let cmd := command.simple
    if nameIs cmd ("quit") then
      { ret := 0, parent := [], children := [], shouldRun := false,
        lastExit := if cmd.argc > 1 then atoi ((cmd.argv 1).getD ("")) else st.lastExit }
    else if nameIs cmd ("exit") then
      { ret := 0, parent := [exitE (if cmd.argc > 1 then atoi ((cmd.argv 1).getD ("")) else 0)],
        children := [], shouldRun := st.shouldRun, lastExit := st.lastExit }
    else if nameIs cmd ("cd") then
      let dir := if cmd.argc > 1 then (cmd.argv 1).getD DEFAULT_HOME_DIR else DEFAULT_HOME_DIR
      { ret := 0,
        parent := [chdirE dir] ++
          (if os.chdirOk then [] else [diagE ("Directory does not exist or cannot be found!")]),
        children := [], shouldRun := st.shouldRun, lastExit := st.lastExit }
    else
      let r := runSimpleCommand os cmd
      { ret := 0, parent := r.parent,
        children := match r.child with | some t => [t] | none => [],
        shouldRun := st.shouldRun, lastExit := st.lastExit }
  | CMD_PIPELINE =>
    let pr := runPipelineCommnad os command.pipe
    { ret := 0, parent := pr.parent, children := pr.children,
      shouldRun := st.shouldRun, lastExit := st.lastExit }
  | _ =>
    { ret := 0, parent := [], children := [], shouldRun := st.shouldRun, lastExit := st.lastExit }

/-! ## Shell driver step (GetCommand, tsh.c lines 440-463) -/

/-- Result of GetCommand: the value ReadLine returned, the updated
shell state, and the parsed command when a nonempty line was read. -/
structure GetResult where
  ret : Int
  st : ShellSt
  cmd : Option TopCommand

/-- GetCommand (tsh.c lines 440-463): read a line; when its length is
positive, tokenize the buffer up to its first NUL (strlen) and parse,
resetting n_simples and _pipeline.len but nothing else of the stale
CommandData; otherwise (an empty line or end of input, both of which
make ReadLine return 0) set should_run = NO and last_exit_status to the
returned length, and parse nothing. -/
def GetCommand (maxArgs maxPipe maxList cap : Nat) (cd0 : CommandData) (st : ShellSt)
    (input : List Char) : GetResult :=
  let len := ReadLineLen cap input
  if 0 < len then
    let line := (readLineChars cap input).takeWhile (fun c => c ≠ Char.ofNat 0)
    let cd := ParseCommand maxArgs maxPipe maxList (tokenize line)
      { cd0 with nSimples := 0, pipeline := { cd0.pipeline with len := 0 } }
    { ret := (len : Int), st := st, cmd := some (topCommand cd) }
  else
    { ret := (len : Int), st := { st with shouldRun := false, lastExit := (len : Int) },
      cmd := none }

/-! ## Concrete instances used by the claim theorems and witnesses -/

/-- A word token with the given value. -/
def wtok (s : String) : Token := { type := TOKEN_WORD, value := some s }

def pipeTok : Token := { type := TOKEN_PIPE, value := none }

/-- A benign OS: fork succeeds, wait reports 0, open returns descriptor 3,
pipe returns (3, 4), chdir and exec succeed. -/
def os0 : Os where
  forkOk := true
  waitStatus := 0
  openRet := fun _ => 3
  pipeRd := 3
  pipeWr := 4
  chdirOk := true
  execOk := true

/-- The same OS but with fork failing. -/
def osNF : Os := { os0 with forkOk := false }

/-- The driver's shell state after initialization in main. -/
def st0 : ShellSt := { shouldRun := true, lastExit := 0 }

/-- The SimpleCommand the parser produces for the tokens of
"prog >> f" (slot 1 has kind REDIRECT_APPEND). -/
def scApp : SimpleCommand :=
  ParseSimpleCommand 8 zeroSimple [wtok ("prog"), appendTok, wtok ("f")]

/-- The SimpleCommand the parser produces for the single token "ls". -/
def scLs : SimpleCommand := ParseSimpleCommand 8 zeroSimple [wtok ("ls")]

/-- A top-level Command dispatching scLs as an external simple command. -/
def topLs : TopCommand :=
  { type := CMD_SIMPLE, flag := 0, simple := scLs, pipe := zeroPipeline }

/-- A top-level Command of type CMD_EMPTY. -/
def topEmpty : TopCommand :=
  { type := CMD_EMPTY, flag := 0, simple := zeroSimple, pipe := zeroPipeline }

/-- A top-level Command of type CMD_INVALID. -/
def topInvalid : TopCommand :=
  { type := CMD_INVALID, flag := CMD_UNKNOWN_TYPE, simple := zeroSimple, pipe := zeroPipeline }

/-- A three-stage pipeline of the parsed simple commands a, b, c. -/
def p3 : Pipeline where
  type := CMD_PIPELINE
  flag := 0
  len := 3
  commands :=
    [{ type := CMD_SIMPLE, flag := 0, simple := ParseSimpleCommand 8 zeroSimple [wtok ("a")] },
     { type := CMD_SIMPLE, flag := 0, simple := ParseSimpleCommand 8 zeroSimple [wtok ("b")] },
     { type := CMD_SIMPLE, flag := 0, simple := ParseSimpleCommand 8 zeroSimple [wtok ("c")] }]

/-- The token sequence of the input "a > b c". -/
def ts4 : List Token := [wtok ("a"), outTok, wtok ("b"), wtok ("c")]

/-- The token sequence of the input "a | b | c". -/
def tsPipe3 : List Token := [wtok ("a"), pipeTok, wtok ("b"), pipeTok, wtok ("c")]

/-! ## Predicates used by the claim theorems -/

/-- The slot invariant of the three redirection slots: each slot records
its own index as source_fd, and an untouched (REDIRECT_NONE) slot has no
path and a negative dest_fd. -/
def slotInv (rs : Nat → Redirection) : Prop :=
  ∀ i, i < 3 → (rs i).source_fd = i ∧
    ((rs i).type = REDIRECT_NONE → (rs i).path = none ∧ (rs i).dest_fd < 0)


def isPipeEv : Event → Bool
  | Event.pipeE _ _ => true
  | _ => false

def isWaitEv : Event → Bool
  | Event.waitE => true
  | _ => false

/-! ## Theorems -/

lemma ReadLineLen_le (cap : Nat) (input : List Char) : ReadLineLen cap input ≤ cap := by
  induction cap generalizing input with
  | zero => simp [ReadLineLen]
  | succ n ih =>
    cases input with
    | nil => simp [ReadLineLen]
    | cons c cs =>
      simp only [ReadLineLen]
      split
      · omega
      · have := ih cs
        omega

lemma slotInv_setRedir (rs : Nat → Redirection) (fd : Nat) (ty : RedirectionType)
    (h : slotInv rs) (hty : ty ≠ REDIRECT_NONE) : slotInv (setRedir rs fd ty) := by
  intro i hi
  unfold setRedir
  by_cases hifd : i = fd
  · subst hifd
    simp only [if_pos rfl]
    exact ⟨rfl, fun hNone => absurd hNone hty⟩
  · simp only [if_neg hifd]
    exact h i hi

lemma slotInv_setRedirPath (rs : Nat → Redirection) (fd : Nat) (pth : Option String)
    (h : slotInv rs) (hty : (rs fd).type ≠ REDIRECT_NONE) :
    slotInv (setRedirPath rs fd pth) := by
  intro i hi
  unfold setRedirPath
  by_cases hifd : i = fd
  · subst hifd
    simp only [if_pos rfl]
    exact ⟨(h i hi).1, fun hNone => absurd hNone hty⟩
  · simp only [if_neg hifd]
    exact h i hi

/-- Workhorse invariant of the redirection loop of ParseSimpleCommand,
by induction on a bound on the remaining token count: the loop only
edits the flag and the redirection slots (type, argc, name, argv pass
through unchanged); the TOO_MANY_ARGUMENTS bit (bit 1) of the flag is
never touched; the slot invariant is preserved; and when tail is the
position just past the remaining tokens (as at every call site), the
ARGUMENT_AFTER_REDIRECT bit (bit 3) is never touched either, because the
loop always exits with p = tail and the post-loop p != tail branch is
dead code. -/
lemma redirLoop_aux : ∀ (n : Nat) (rem : List Token), rem.length ≤ n →
    ∀ (p tail : Nat) (s : SimpleCommand),
    (redirLoop rem p tail s).type = s.type ∧ (redirLoop rem p tail s).argc = s.argc ∧
    (redirLoop rem p tail s).name = s.name ∧
    (∀ j, (redirLoop rem p tail s).argv j = s.argv j) ∧
    ((redirLoop rem p tail s).flag.testBit 1 = s.flag.testBit 1) ∧
    (slotInv s.redirects → slotInv (redirLoop rem p tail s).redirects) ∧
    (p + rem.length = tail →
      (redirLoop rem p tail s).flag.testBit 3 = s.flag.testBit 3) := by
  have hb1 : Nat.testBit CMD_SYNTAX_ERROR 1 = false := by decide
  have hb4 : Nat.testBit CMD_MISSING_REDIRECTION_DESTINATION 1 = false := by decide
  have hbg : Nat.testBit CMD_BACKGROUND_MODE 1 = false := by decide
  have hb8 : Nat.testBit CMD_ARGUMENT_AFTER_REDIRECT 1 = false := by decide
  have hc1 : Nat.testBit CMD_SYNTAX_ERROR 3 = false := by decide
  have hc4 : Nat.testBit CMD_MISSING_REDIRECTION_DESTINATION 3 = false := by decide
  have hcg : Nat.testBit CMD_BACKGROUND_MODE 3 = false := by decide
  intro n
  induction n with
  | zero =>
    intro rem hr p tail s
    have hnil : rem = [] := List.eq_nil_of_length_eq_zero (by omega)
    subst hnil
    simp only [redirLoop]
    split
    · next hpt =>
      exact ⟨rfl, rfl, rfl, fun j => rfl,
        by simp [Nat.testBit_lor, hb1, hb4, hbg, hb8],
        fun h => h,
        fun hl => by simp only [List.length_nil] at hl; omega⟩
    · exact ⟨rfl, rfl, rfl, fun j => rfl, rfl, fun h => h, fun _ => rfl⟩
  | succ n ih =>
    intro rem hr p tail s
    cases rem with
    | nil =>
      simp only [redirLoop]
      split
      · next hpt =>
        exact ⟨rfl, rfl, rfl, fun j => rfl,
          by simp [Nat.testBit_lor, hb1, hb4, hbg, hb8],
          fun h => h,
          fun hl => by simp only [List.length_nil] at hl; omega⟩
      · exact ⟨rfl, rfl, rfl, fun j => rfl, rfl, fun h => h, fun _ => rfl⟩
    | cons t rest =>
      have hlen : rest.length ≤ n := by
        simp only [List.length_cons] at hr
        omega
      cases ht : t.type <;> simp only [redirLoop, ht]
      case TOKEN_REDIRECT_INPUT | TOKEN_REDIRECT_OUTPUT | TOKEN_REDIRECT_OUTPUT_APPEND =>
        all_goals (
          rcases rest with _ | ⟨q, rest2⟩
          · exact ⟨rfl, rfl, rfl, fun j => rfl,
              by simp [Nat.testBit_lor, hb1, hb4, hbg, hb8],
              fun h => slotInv_setRedir _ _ _ h (by decide),
              fun hl => by simp [Nat.testBit_lor, hc1, hc4, hcg]⟩
          · have hlen2 : rest2.length ≤ n := by
              simp only [List.length_cons] at hlen
              omega
            cases hq : q.type <;> simp only [hq]
            case TOKEN_WORD =>
              obtain ⟨a, b, c, d, e, f, g⟩ := ih rest2 (by omega) (p + 2) tail _
              exact ⟨a, b, c, d, e,
                fun h => f (slotInv_setRedirPath _ _ _
                  (slotInv_setRedir _ _ _ h (by decide)) (by simp [setRedir])),
                fun hl => g (by simp only [List.length_cons] at hl ⊢; omega)⟩
            all_goals
              exact ⟨by first | rfl | trivial, by first | rfl | trivial,
                by first | rfl | trivial, by intro j; first | rfl | trivial,
                by simp [Nat.testBit_lor, hb1, hb4, hbg, hb8],
                fun h => slotInv_setRedir _ _ _ h (by decide),
                fun hl => by simp [Nat.testBit_lor, hc1, hc4, hcg]⟩)
      case TOKEN_BACKGROUND =>
        obtain ⟨a, b, c, d, e, f, g⟩ := ih rest hlen (p + 1) tail
          { s with flag := s.flag ||| CMD_BACKGROUND_MODE }
        exact ⟨a, b, c, d,
          by rw [e]; simp [Nat.testBit_lor, hbg],
          f,
          fun hl => by
            rw [g (by simp only [List.length_cons] at hl ⊢; omega)]
            simp [Nat.testBit_lor, hcg]⟩
      all_goals (
        obtain ⟨a, b, c, d, e, f, g⟩ := ih rest hlen (p + 1) tail
          { s with flag := s.flag ||| CMD_SYNTAX_ERROR }
        exact ⟨a, b, c, d,
          by rw [e]; simp [Nat.testBit_lor, hb1],
          f,
          fun hl => by
            rw [g (by simp only [List.length_cons] at hl ⊢; omega)]
            simp [Nat.testBit_lor, hc1]⟩)

lemma redirLoop_type (rem : List Token) (p tail : Nat) (s : SimpleCommand) :
    (redirLoop rem p tail s).type = s.type :=
  (redirLoop_aux rem.length rem le_rfl p tail s).1

lemma redirLoop_argc (rem : List Token) (p tail : Nat) (s : SimpleCommand) :
    (redirLoop rem p tail s).argc = s.argc :=
  (redirLoop_aux rem.length rem le_rfl p tail s).2.1

lemma redirLoop_argv (rem : List Token) (p tail : Nat) (s : SimpleCommand) (j : Nat) :
    (redirLoop rem p tail s).argv j = s.argv j :=
  (redirLoop_aux rem.length rem le_rfl p tail s).2.2.2.1 j

lemma redirLoop_bit1 (rem : List Token) (p tail : Nat) (s : SimpleCommand) :
    (redirLoop rem p tail s).flag.testBit 1 = s.flag.testBit 1 :=
  (redirLoop_aux rem.length rem le_rfl p tail s).2.2.2.2.1

lemma redirLoop_slots (rem : List Token) (p tail : Nat) (s : SimpleCommand)
    (h : slotInv s.redirects) : slotInv (redirLoop rem p tail s).redirects :=
  (redirLoop_aux rem.length rem le_rfl p tail s).2.2.2.2.2.1 h

lemma redirLoop_bit3 (rem : List Token) (p tail : Nat) (s : SimpleCommand)
    (h : p + rem.length = tail) :
    (redirLoop rem p tail s).flag.testBit 3 = s.flag.testBit 3 :=
  (redirLoop_aux rem.length rem le_rfl p tail s).2.2.2.2.2.2 h

/-- ParseSimpleCommand never sets the TOO_MANY_ARGUMENTS bit: the
argument loop caps the count at maxArgs, so the i > maxArgs check that
would set the bit is unreachable, and no other assignment touches
bit 1. -/
lemma ParseSimpleCommand_testBit1 (maxArgs : Nat) (s0 : SimpleCommand) (ts : List Token)
    (h0 : s0.flag.testBit 1 = false) :
    ((ParseSimpleCommand maxArgs s0 ts).flag).testBit 1 = false := by
  have hmin : ¬ (min (ts.takeWhile isWordTok).length maxArgs > maxArgs) := by
    have := Nat.min_le_right (ts.takeWhile isWordTok).length maxArgs
    omega
  simp only [ParseSimpleCommand, if_neg hmin, redirLoop_bit1]
  rcases ts with _ | ⟨t, rest⟩
  · simpa using h0
  · cases ht : t.type <;> simp [ht, h0]

/-- ParseSimpleCommand never sets the ARGUMENT_AFTER_REDIRECT bit: the
redirection loop always exits with its cursor at tail, so the post-loop
p != tail branch is unreachable, and no other assignment touches
bit 3. -/
lemma ParseSimpleCommand_testBit3 (maxArgs : Nat) (s0 : SimpleCommand) (ts : List Token)
    (h0 : s0.flag.testBit 3 = false) :
    ((ParseSimpleCommand maxArgs s0 ts).flag).testBit 3 = false := by
  have hwl := (List.takeWhile_sublist (p := isWordTok) (l := ts)).length_le
  have hmin : ¬ (min (ts.takeWhile isWordTok).length maxArgs > maxArgs) := by
    have := Nat.min_le_right (ts.takeWhile isWordTok).length maxArgs
    omega
  have hdl : (min (ts.takeWhile isWordTok).length maxArgs) +
      (ts.drop (min (ts.takeWhile isWordTok).length maxArgs)).length = ts.length := by
    have h1 := Nat.min_le_left (ts.takeWhile isWordTok).length maxArgs
    simp only [List.length_drop]
    omega
  simp only [ParseSimpleCommand, if_neg hmin, redirLoop_bit3 _ _ _ _ hdl]
  rcases ts with _ | ⟨t, rest⟩
  · simpa using h0
  · cases ht : t.type <;> simp [ht, h0]

/-- Claim C8 (amended): for every SimpleCommand the parser produces whose
type is Simple (the slice began with a Word) and whose flag bitset is 0,
with a positive argument cap: argc is at least 1, argv[argc] is the null
sentinel exec requires, each redirection slot i has source_fd = i, and
every slot of kind None has no path and a negative dest_fd. -/
theorem c8_simple_invariants (maxArgs : Nat) (s0 : SimpleCommand) (ts : List Token)
    (hmax : 1 ≤ maxArgs)
    (hty : (ParseSimpleCommand maxArgs s0 ts).type = CMD_SIMPLE)
    (hfl : (ParseSimpleCommand maxArgs s0 ts).flag = 0) :
    1 ≤ (ParseSimpleCommand maxArgs s0 ts).argc ∧
    (ParseSimpleCommand maxArgs s0 ts).argv ((ParseSimpleCommand maxArgs s0 ts).argc) = none ∧
    (∀ i, i < 3 → ((ParseSimpleCommand maxArgs s0 ts).redirects i).source_fd = i ∧
      (((ParseSimpleCommand maxArgs s0 ts).redirects i).type = REDIRECT_NONE →
        ((ParseSimpleCommand maxArgs s0 ts).redirects i).path = none ∧
        ((ParseSimpleCommand maxArgs s0 ts).redirects i).dest_fd < 0)) := by
  have hmin : ¬ (min (ts.takeWhile isWordTok).length maxArgs > maxArgs) := by
    have := Nat.min_le_right (ts.takeWhile isWordTok).length maxArgs
    omega
  simp only [ParseSimpleCommand, if_neg hmin, redirLoop_type, redirLoop_argc,
    redirLoop_argv] at hty ⊢
  refine ⟨?_, ?_, ?_⟩
  · -- argc = min wlen maxArgs is at least 1 because the head is a Word
    rcases ts with _ | ⟨t, rest⟩
    · simp at hty
    · cases ht : t.type <;> simp [ht] at hty ⊢
      case TOKEN_WORD =>
        have : isWordTok t = true := by simp [isWordTok, ht]
        simp [List.takeWhile_cons, this]
        omega
  · -- the sentinel entry
    simp
  · -- the redirection slots
    intro i hi
    refine redirLoop_slots _ _ _ _ ?_ i hi
    intro k hk
    simp [if_pos hk]

/-- tokenizeF is insensitive to the exact fuel as long as the fuel
strictly dominates the remaining length (every iteration consumes at
least one character). -/
lemma tokenizeF_congr : ∀ (f1 f2 : Nat) (l : List Char), l.length < f1 → l.length < f2 →
    tokenizeF f1 l = tokenizeF f2 l := by
  intro f1
  induction f1 with
  | zero => intro f2 l h1 h2; omega
  | succ f ih =>
    intro f2 l h1 h2
    cases f2 with
    | zero => omega
    | succ g =>
      cases l with
      | nil => simp [tokenizeF]
      | cons c cs =>
        simp only [tokenizeF]
        simp only [List.length_cons] at h1 h2
        by_cases hw : isWhitespaceC c
        · simp only [hw, if_pos]
          exact ih g cs (by omega) (by omega)
        · simp only [hw, Bool.false_eq_true, if_neg, if_false]
          by_cases hs : isSymbolC c
          · simp only [hs, if_pos]
            by_cases hgt : c = '>' ∧ cs.headD (Char.ofNat 0) = '>'
            · simp only [if_pos hgt]
              have : cs.tail.length ≤ cs.length := by
                cases cs <;> simp
              rw [ih g cs.tail (by omega) (by omega)]
            · simp only [if_neg hgt]
              rw [ih g cs (by omega) (by omega)]
          · simp only [hs, Bool.false_eq_true, if_neg, if_false]
            have hdrop : (cs.dropWhile isWordCharC).length ≤ cs.length :=
              (List.dropWhile_sublist isWordCharC).length_le
            have hred : (c :: cs).dropWhile isWordCharC = cs.dropWhile isWordCharC := by
              rw [List.dropWhile_cons]
              simp [isWordCharC, hw, hs]
            rw [hred, ih g (cs.dropWhile isWordCharC) (by omega) (by omega)]

/-- Unfold one step of tokenize on a list headed by a symbol character
that does not start a ">>" pair. -/
lemma tokenize_cons_symbol (c : Char) (rest : List Char)
    (hs : isSymbolC c = true) (hw : isWhitespaceC c = false)
    (hgt : ¬ (c = '>' ∧ rest.headD (Char.ofNat 0) = '>')) :
    tokenize (c :: rest) = { type := symTokType c, value := none } :: tokenize rest := by
  simp only [tokenize, List.length_cons, tokenizeF, hw, Bool.false_eq_true, if_false, hs, if_pos,
    if_neg hgt]

/-- Unfold one step of tokenize on a ">>" pair: a single
RedirOutAppend token is emitted and both characters are consumed. -/
lemma tokenize_cons_gtgt (cs : List Char) (h : cs.headD (Char.ofNat 0) = '>') :
    tokenize ('>' :: cs) = appendTok :: tokenize cs.tail := by
  have hw : isWhitespaceC '>' = false := by decide
  have hs : isSymbolC '>' = true := by decide
  simp only [tokenize, List.length_cons, tokenizeF, hw, Bool.false_eq_true, if_false, hs, if_pos,
    if_pos (show ('>' : Char) = '>' ∧ cs.headD (Char.ofNat 0) = '>' from ⟨rfl, h⟩), appendTok]
  have htl : cs.tail.length ≤ cs.length := by cases cs <;> simp
  rw [tokenizeF_congr (cs.length + 1) (cs.tail.length + 1) cs.tail (by omega) (by omega)]
  exact if_pos ⟨trivial, h⟩

/-- The greedy handling of maximal runs of the character > by the
lexer: a run of k consecutive > characters (followed by anything that
is not another >) lexes to k / 2 RedirOutAppend tokens followed by a
final RedirOut token when k is odd, and lexing then continues after the
run. -/
lemma tokenize_gt_run : ∀ (k : Nat) (rest : List Char), rest.head? ≠ some '>' →
    tokenize (List.replicate k '>' ++ rest) =
      List.replicate (k / 2) appendTok ++ (if k % 2 = 1 then [outTok] else [])
        ++ tokenize rest := by
  intro k
  induction k using Nat.strong_induction_on with
  | _ k ih =>
    match k with
    | 0 => intro rest h; simp
    | 1 =>
      intro rest h
      have hgt : ¬ (('>' : Char) = '>' ∧ rest.headD (Char.ofNat 0) = '>') := by
        rintro ⟨-, hd⟩
        cases rest with
        | nil => exact absurd hd (by decide)
        | cons a t => exact h (by simpa using hd)
      simp only [List.replicate, List.nil_append, List.cons_append]
      rw [tokenize_cons_symbol '>' rest (by decide) (by decide) hgt]
      simp [outTok, symTokType]
    | k + 2 =>
      intro rest h
      have hrep : List.replicate (k + 2) '>' ++ rest =
          '>' :: ('>' :: (List.replicate k '>' ++ rest)) := by
        simp [List.replicate_succ]
      rw [hrep]
      have hhd : ('>' :: (List.replicate k '>' ++ rest)).headD (Char.ofNat 0) = '>' := by simp
      rw [tokenize_cons_gtgt _ hhd]
      simp only [List.tail_cons]
      rw [ih k (by omega) rest h]
      have hdiv : (k + 2) / 2 = k / 2 + 1 := by omega
      have hmod : (k + 2) % 2 = k % 2 := by omega
      rw [hdiv, hmod, List.replicate_succ]
      simp


/-- Claim C6: one pipe before the fork loop; stage 0 redirects fd 1 to
the write end, the last stage redirects fd 0 to the read end, middle
stages redirect fd 1 to the read end and fd 0 to the write end (the
source's wiring, mirrored faithfully); the parent closes both pipe
descriptors after the loop and waits exactly N times. -/
theorem c6_pipeline_wiring (os : Os) (p : Pipeline)
    (hfork : os.forkOk = true) (hlen : 2 ≤ p.len) :
    (runPipelineCommnad os p).ret = 0 ∧
    (runPipelineCommnad os p).parent =
      Event.pipeE os.pipeRd os.pipeWr :: (List.replicate p.len Event.forkE ++
        ([Event.closeE os.pipeRd, Event.closeE os.pipeWr] ++
          List.replicate p.len Event.waitE)) ∧
    ((runPipelineCommnad os p).parent.countP isPipeEv) = 1 ∧
    ((runPipelineCommnad os p).parent.countP isWaitEv) = p.len ∧
    (runPipelineCommnad os p).children = (List.range p.len).map (pipelineChild os p) ∧
    (runPipelineCommnad os p).children.length = p.len ∧
    pipelineChild os p 0 =
      [Event.closeE 1, Event.dupE os.pipeWr, Event.closeE os.pipeRd, Event.closeE os.pipeWr]
        ++ stageInputRedir os (innerAt p 0).simple ++ [execEv (innerAt p 0).simple] ∧
    pipelineChild os p (p.len - 1) =
      [Event.closeE 0, Event.dupE os.pipeRd, Event.closeE os.pipeRd, Event.closeE os.pipeWr]
        ++ stageOutputRedir os (innerAt p (p.len - 1)).simple
        ++ [execEv (innerAt p (p.len - 1)).simple] ∧
    (∀ x, 0 < x → x < p.len - 1 → pipelineChild os p x =
      [Event.closeE 1, Event.dupE os.pipeRd, Event.closeE 0, Event.dupE os.pipeWr,
       Event.closeE os.pipeRd, Event.closeE os.pipeWr, execEv (innerAt p x).simple]) := by
  refine ⟨rfl, by simp [runPipelineCommnad], ?_, ?_, by simp [runPipelineCommnad, hfork],
    by simp [runPipelineCommnad, hfork], ?_, ?_, ?_⟩
  · simp [runPipelineCommnad, List.countP_cons, List.countP_append, List.countP_replicate,
      isPipeEv]
  · simp [runPipelineCommnad, List.countP_cons, List.countP_append, List.countP_replicate,
      isWaitEv]
  · simp [pipelineChild]
  · have h0 : ¬ (p.len - 1 = 0) := by omega
    simp [pipelineChild, h0]
  · intro x hx0 hx1
    have h0 : ¬ (x = 0) := by omega
    have h1 : ¬ (x = p.len - 1) := by omega
    simp [pipelineChild, h0, h1]

/-- Claim C3 (amended): a slot-1 redirection of kind Append is ignored
by the executor: runSimpleCommand's child applies no output redirection
at all (the handler fires only for kind Out), so the child performs no
write-mode open anywhere and leaves fd 1 untouched. -/
theorem c3_append_slot_ignored (os : Os) (cmd : SimpleCommand)
    (happ : (cmd.redirects 1).type = REDIRECT_APPEND) :
    simpleOutPart os cmd = execTail os cmd ∧
    (cmd.type ≠ CMD_EMPTY → cmd.type ≠ CMD_INVALID →
      ∀ pth, Event.openE pth OpenMode.O_WRONLY_CREATE ∉ runSimpleChild os cmd) := by
  have hout : simpleOutPart os cmd = execTail os cmd := by
    simp only [simpleOutPart, happ]
  refine ⟨hout, fun h1 h2 pth => ?_⟩
  have hexec : ∀ q, Event.openE q OpenMode.O_WRONLY_CREATE ∉ execTail os cmd := by
    intro q
    simp only [execTail, execEv]
    split <;> simp
  cases hty : cmd.type
  case CMD_EMPTY => exact absurd hty h1
  case CMD_INVALID => exact absurd hty h2
  all_goals (
    simp only [runSimpleChild, hty]
    cases hr0 : (cmd.redirects 0).type <;> simp only [hr0]
    case REDIRECT_INPUT =>
      split
      · simp
      · rw [hout]
        simp only [List.mem_append, List.mem_cons]
        rintro (h | h)
        · rcases h with h | h | h | h <;> simp_all
        · exact hexec pth h
    all_goals (rw [hout]; exact hexec pth))

/-- Claim C5 (amended): run_command returns 1 for Empty and -1 for
Invalid; for an external simple command when fork fails,
runSimpleCommand itself returns -1 but run_command discards that value
and returns 0. -/
theorem c5_run_command_status (os : Os) (st : ShellSt) (c : TopCommand) :
    (c.type = CMD_EMPTY → (RunCommand os st c).ret = 1) ∧
    (c.type = CMD_INVALID → (RunCommand os st c).ret = -1) ∧
    (c.type = CMD_SIMPLE → nameIs c.simple ("quit") = false →
      nameIs c.simple ("exit") = false → nameIs c.simple ("cd") = false →
      os.forkOk = false →
      (runSimpleCommand os c.simple).ret = -1 ∧ (RunCommand os st c).ret = 0) := by
  refine ⟨fun h => ?_, fun h => ?_, fun h h1 h2 h3 h4 => ⟨?_, ?_⟩⟩
  · simp [RunCommand, h]
  · simp [RunCommand, h]
  · simp [runSimpleCommand, h4]
  · simp [RunCommand, h, h1, h2, h3, runSimpleCommand, h4]

/-- Claim C9: a run of k consecutive > characters lexes greedily into
single RedirOutAppend tokens for each >> pair, with a trailing lone >
(including the third > of >>>) emitted as a single RedirOut; the other
symbols each lex to a single one-character token. -/
theorem c9_lexer_symbols :
    (∀ (k : Nat) (rest : List Char), rest.head? ≠ some '>' →
      tokenize (List.replicate k '>' ++ rest) =
        List.replicate (k / 2) appendTok ++ (if k % 2 = 1 then [outTok] else [])
          ++ tokenize rest) ∧
    (∀ rest : List Char, tokenize ('<' :: rest) =
      { type := TOKEN_REDIRECT_INPUT, value := none } :: tokenize rest) ∧
    (∀ rest : List Char, tokenize ('|' :: rest) =
      { type := TOKEN_PIPE, value := none } :: tokenize rest) ∧
    (∀ rest : List Char, tokenize ('&' :: rest) =
      { type := TOKEN_BACKGROUND, value := none } :: tokenize rest) ∧
    (∀ rest : List Char, tokenize (';' :: rest) =
      { type := TOKEN_LIST, value := none } :: tokenize rest) :=
  ⟨tokenize_gt_run, fun _ => rfl, fun _ => rfl, fun _ => rfl, fun _ => rfl⟩

/-- Witness for C9: the input ">>>" lexes to a RedirOutAppend followed
by a RedirOut. -/
theorem c9_lexer_symbols_witness :
    (([] : List Char).head? ≠ some '>') ∧
    tokenize (List.replicate 3 '>' ++ []) =
      List.replicate (3 / 2) appendTok ++ (if 3 % 2 = 1 then [outTok] else [])
        ++ tokenize [] :=
  ⟨by decide, c9_lexer_symbols.1 3 [] (by decide)⟩

/-- Claim C10: CMD_PIPELINE_TOO_LONG is 0x0f, the bitwise OR of the four
flags SYNTAX_ERROR, TOO_MANY_ARGUMENTS, MISSING_REDIRECTION_DESTINATION
and ARGUMENT_AFTER_REDIRECT, so any pipeline flag word the parser
produces that contains the PIPELINE_TOO_LONG mask also tests positive
for each of those four error kinds. -/
theorem c10_pipeline_too_long_overlap (maxArgs maxPipe maxList : Nat)
    (ts : List Token) (cd0 : CommandData) :
    CMD_PIPELINE_TOO_LONG = (CMD_SYNTAX_ERROR ||| CMD_TOO_MANY_ARGUMENTS |||
      CMD_MISSING_REDIRECTION_DESTINATION ||| CMD_ARGUMENT_AFTER_REDIRECT) ∧
    ((ParsePipeline maxArgs maxPipe maxList ts cd0).pipeline.flag &&& CMD_PIPELINE_TOO_LONG =
        CMD_PIPELINE_TOO_LONG →
      (ParsePipeline maxArgs maxPipe maxList ts cd0).pipeline.flag &&& CMD_SYNTAX_ERROR ≠ 0 ∧
      (ParsePipeline maxArgs maxPipe maxList ts cd0).pipeline.flag &&&
        CMD_TOO_MANY_ARGUMENTS ≠ 0 ∧
      (ParsePipeline maxArgs maxPipe maxList ts cd0).pipeline.flag &&&
        CMD_MISSING_REDIRECTION_DESTINATION ≠ 0 ∧
      (ParsePipeline maxArgs maxPipe maxList ts cd0).pipeline.flag &&&
        CMD_ARGUMENT_AFTER_REDIRECT ≠ 0) := by
  refine ⟨by decide, fun h => ?_⟩
  have key : ∀ c : Nat, CMD_PIPELINE_TOO_LONG &&& c = c → c ≠ 0 →
      (ParsePipeline maxArgs maxPipe maxList ts cd0).pipeline.flag &&& c ≠ 0 := by
    intro c hc hc0
    have h2 : (ParsePipeline maxArgs maxPipe maxList ts cd0).pipeline.flag &&&
        CMD_PIPELINE_TOO_LONG &&& c = CMD_PIPELINE_TOO_LONG &&& c := by rw [h]
    rw [Nat.and_assoc, hc] at h2
    rw [h2]
    exact hc0
  exact ⟨key _ (by decide) (by decide), key _ (by decide) (by decide),
    key _ (by decide) (by decide), key _ (by decide) (by decide)⟩

/-- Witness for C10: with a pipeline cap of 2, the three-stage input
"a | b | c" makes the parser set PIPELINE_TOO_LONG, and the resulting
flag tests positive for all four other error kinds. -/
theorem c10_pipeline_too_long_overlap_witness :
    ((ParsePipeline 8 2 10 tsPipe3 zeroCd).pipeline.flag &&& CMD_PIPELINE_TOO_LONG =
      CMD_PIPELINE_TOO_LONG) ∧
    ((ParsePipeline 8 2 10 tsPipe3 zeroCd).pipeline.flag &&& CMD_SYNTAX_ERROR ≠ 0 ∧
     (ParsePipeline 8 2 10 tsPipe3 zeroCd).pipeline.flag &&& CMD_TOO_MANY_ARGUMENTS ≠ 0 ∧
     (ParsePipeline 8 2 10 tsPipe3 zeroCd).pipeline.flag &&&
       CMD_MISSING_REDIRECTION_DESTINATION ≠ 0 ∧
     (ParsePipeline 8 2 10 tsPipe3 zeroCd).pipeline.flag &&&
       CMD_ARGUMENT_AFTER_REDIRECT ≠ 0) :=
  ⟨by decide, (c10_pipeline_too_long_overlap 8 2 10 tsPipe3 zeroCd).2 (by decide)⟩

/-- Claim C1 (code bug, evaluation at the failing inputs): on a line
holding a single space, the parser wraps the empty SimpleCommand in a
top-level Command of type CMD_SIMPLE (set_command never produces a
top-level CMD_EMPTY), so RunCommand's Empty branch is not taken: it
forks a child (which exits 0 on seeing the empty simple), waits, and
returns 0, not 1.  On a fully empty line, ReadLine returns 0, so
GetCommand sets should_run to NO (the shell stops) and no command is
parsed or run at all. -/
theorem c1_blank_line_behavior :
    (topCommand (ParseCommand 8 4 10 (tokenize [' ']) zeroCd)).type = CMD_SIMPLE ∧
    (topCommand (ParseCommand 8 4 10 (tokenize [' ']) zeroCd)).type ≠ CMD_EMPTY ∧
    (ParseCommand 8 4 10 (tokenize [' ']) zeroCd).cmdSimple.type = CMD_EMPTY ∧
    (RunCommand os0 st0 (topCommand (ParseCommand 8 4 10 (tokenize [' ']) zeroCd))).ret = 0 ∧
    (RunCommand os0 st0 (topCommand (ParseCommand 8 4 10 (tokenize [' ']) zeroCd))).ret ≠ 1 ∧
    (RunCommand os0 st0 (topCommand (ParseCommand 8 4 10 (tokenize [' ']) zeroCd))).parent
      = [Event.forkE, Event.waitE] ∧
    (RunCommand os0 st0 (topCommand (ParseCommand 8 4 10 (tokenize [' ']) zeroCd))).children
      = [[Event.exitE 0]] ∧
    (GetCommand 8 4 10 64 zeroCd st0 []).ret = 0 ∧
    (GetCommand 8 4 10 64 zeroCd st0 []).st.shouldRun = false ∧
    (GetCommand 8 4 10 64 zeroCd st0 []).cmd.isNone = true ∧
    (GetCommand 8 4 10 64 zeroCd st0 [' ']).ret = 1 ∧
    ((GetCommand 8 4 10 64 zeroCd st0 [' ']).cmd.map (fun c => c.type)) = some CMD_SIMPLE := by
  decide

/-- Claim C2 (code bug, evaluation at the failing input): with an
argument cap of 3, a line of exactly 3 words parses with no error flag,
but a line of 4 words gets CMD_SYNTAX_ERROR (each overflow word hits
the unexpected-token branch of the redirection loop), never
CMD_TOO_MANY_ARGUMENTS: the argument loop caps the count at the
maximum, so the i > max check guarding that flag is unreachable, as the
last conjunct states for every input and cap. -/
theorem c2_max_args_boundary :
    (ParseSimpleCommand 3 zeroSimple (List.replicate 3 (wtok ("a")))).flag = 0 ∧
    (ParseSimpleCommand 3 zeroSimple (List.replicate 4 (wtok ("a")))).flag = CMD_SYNTAX_ERROR ∧
    (ParseSimpleCommand 3 zeroSimple (List.replicate 4 (wtok ("a")))).flag &&&
      CMD_TOO_MANY_ARGUMENTS = 0 ∧
    (∀ (maxArgs : Nat) (ts : List Token),
      ((ParseSimpleCommand maxArgs zeroSimple ts).flag).testBit 1 = false) :=
  ⟨by decide, by decide, by decide,
    fun m ts => ParseSimpleCommand_testBit1 m zeroSimple ts (by decide)⟩

/-- Claim C4 (code bug, evaluation at the failing input): on the tokens
of "a > b c" the parser sets only CMD_SYNTAX_ERROR; the
ARGUMENT_AFTER_REDIRECT flag is not set there, and (last conjunct) is
never set on any input: the redirection loop always exits with its
cursor at tail, so the post-loop p != tail branch that would set it is
unreachable. -/
theorem c4_argument_after_redirect_dead :
    (ParseSimpleCommand 8 zeroSimple ts4).flag = CMD_SYNTAX_ERROR ∧
    (ParseSimpleCommand 8 zeroSimple ts4).flag &&& CMD_ARGUMENT_AFTER_REDIRECT = 0 ∧
    (∀ (maxArgs : Nat) (ts : List Token),
      ((ParseSimpleCommand maxArgs zeroSimple ts).flag).testBit 3 = false) :=
  ⟨by decide, by decide,
    fun m ts => ParseSimpleCommand_testBit3 m zeroSimple ts (by decide)⟩

/-- Claim C7 (code bug, evaluation at the failing input): the stored
line is always at most cap bytes and the newline is stripped, but when
the input reaches the cap the final length equals cap, so the
terminating store buffer[len] = NUL lands at index cap, one past the
last valid index cap - 1: it is not within the buffer's bounds. -/
theorem c7_read_line_terminator :
    (∀ (cap : Nat) (input : List Char), ReadLineLen cap input ≤ cap) ∧
    ReadLineLen 8 ['h', 'i', '\n', 'x'] = 2 ∧
    ReadLineLen 8 (List.replicate 9 'a') = 8 ∧
    ¬ (ReadLineLen 8 (List.replicate 9 'a') < 8) :=
  ⟨ReadLineLen_le, by decide, by decide, by decide⟩

/-- Counterexample to C3 as stated: for the parsed command
"prog >> f", whose slot 1 has kind Append, the child performs no
write-mode open of "f" and no descriptor duplication at all - it just
execs - rather than opening write-only-create and redirecting fd 1 as
the claim asserts. -/
theorem c3_append_ignored_counterexample :
    (scApp.redirects 1).type = REDIRECT_APPEND ∧
    runSimpleChild os0 scApp = [Event.execE (some ("prog")) [some ("prog"), none]] ∧
    Event.openE (some ("f")) OpenMode.O_WRONLY_CREATE ∉ runSimpleChild os0 scApp ∧
    Event.dupE 3 ∉ runSimpleChild os0 scApp := by
  decide

/-- Witness for C3 (amended), at the parsed command "prog >> f". -/
theorem c3_append_slot_ignored_witness :
    (scApp.redirects 1).type = REDIRECT_APPEND ∧
    (simpleOutPart os0 scApp = execTail os0 scApp ∧
      (scApp.type ≠ CMD_EMPTY → scApp.type ≠ CMD_INVALID →
        ∀ pth, Event.openE pth OpenMode.O_WRONLY_CREATE ∉ runSimpleChild os0 scApp)) :=
  ⟨by decide, c3_append_slot_ignored os0 scApp (by decide)⟩

/-- Counterexample to C5 as stated: when fork fails while running the
external command "ls", runSimpleCommand returns -1 but RunCommand
discards that value and returns 0, not the -1 the claim asserts. -/
theorem c5_fork_failure_counterexample :
    (runSimpleCommand osNF scLs).ret = -1 ∧
    (RunCommand osNF st0 topLs).ret = 0 ∧
    ¬ ((RunCommand osNF st0 topLs).ret = -1) := by
  decide

/-- Witness for C5 (amended), at an Empty command, an Invalid command,
and the external command "ls" under a failing fork. -/
theorem c5_run_command_status_witness :
    (RunCommand os0 st0 topEmpty).ret = 1 ∧
    (RunCommand os0 st0 topInvalid).ret = -1 ∧
    ((runSimpleCommand osNF topLs.simple).ret = -1 ∧ (RunCommand osNF st0 topLs).ret = 0) :=
  ⟨(c5_run_command_status os0 st0 topEmpty).1 rfl,
   (c5_run_command_status os0 st0 topInvalid).2.1 rfl,
   (c5_run_command_status osNF st0 topLs).2.2 rfl (by decide) (by decide) (by decide) rfl⟩

/-- Witness for C6, at a three-stage pipeline under a benign OS. -/
theorem c6_pipeline_wiring_witness :
    os0.forkOk = true ∧ 2 ≤ p3.len ∧
    ((runPipelineCommnad os0 p3).parent.countP isPipeEv = 1 ∧
     (runPipelineCommnad os0 p3).parent.countP isWaitEv = p3.len ∧
     (runPipelineCommnad os0 p3).children.length = p3.len ∧
     pipelineChild os0 p3 1 =
       [Event.closeE 1, Event.dupE os0.pipeRd, Event.closeE 0, Event.dupE os0.pipeWr,
        Event.closeE os0.pipeRd, Event.closeE os0.pipeWr, execEv (innerAt p3 1).simple]) :=
  ⟨rfl, by decide,
    (c6_pipeline_wiring os0 p3 rfl (by decide)).2.2.1,
    (c6_pipeline_wiring os0 p3 rfl (by decide)).2.2.2.1,
    (c6_pipeline_wiring os0 p3 rfl (by decide)).2.2.2.2.2.1,
    (c6_pipeline_wiring os0 p3 rfl (by decide)).2.2.2.2.2.2.2.2 1 (by decide) (by decide)⟩

/-- Counterexample to C8 as stated: parsing an empty token slice over a
zero-initialized slot yields a SimpleCommand whose flag bitset is 0 yet
whose argc is 0, contradicting the claimed argc >= 1. -/
theorem c8_empty_flag_zero_counterexample :
    (ParseSimpleCommand 8 zeroSimple []).flag = 0 ∧
    (ParseSimpleCommand 8 zeroSimple []).argc = 0 ∧
    ¬ (1 ≤ (ParseSimpleCommand 8 zeroSimple []).argc) := by
  decide

/-- Witness for C8 (amended), at the parsed command "cat x". -/
theorem c8_simple_invariants_witness :
    (1 ≤ 8) ∧
    (ParseSimpleCommand 8 zeroSimple [wtok ("cat"), wtok ("x")]).type = CMD_SIMPLE ∧
    (ParseSimpleCommand 8 zeroSimple [wtok ("cat"), wtok ("x")]).flag = 0 ∧
    (1 ≤ (ParseSimpleCommand 8 zeroSimple [wtok ("cat"), wtok ("x")]).argc ∧
     (ParseSimpleCommand 8 zeroSimple [wtok ("cat"), wtok ("x")]).argv
       ((ParseSimpleCommand 8 zeroSimple [wtok ("cat"), wtok ("x")]).argc) = none ∧
     (∀ i, i < 3 →
       ((ParseSimpleCommand 8 zeroSimple [wtok ("cat"), wtok ("x")]).redirects i).source_fd = i ∧
       (((ParseSimpleCommand 8 zeroSimple [wtok ("cat"), wtok ("x")]).redirects i).type =
           REDIRECT_NONE →
         ((ParseSimpleCommand 8 zeroSimple [wtok ("cat"), wtok ("x")]).redirects i).path = none ∧
         ((ParseSimpleCommand 8 zeroSimple [wtok ("cat"), wtok ("x")]).redirects i).dest_fd
           < 0))) :=
  ⟨by decide, by decide, by decide,
    c8_simple_invariants 8 zeroSimple [wtok ("cat"), wtok ("x")]
      (by decide) (by decide) (by decide)⟩
